import Mathlib

/-!
Verification of the Travel_BE vector-search and RAG core.

Shallow embedding of:
  * `services/faiss_service.py`  (FAISSService: add_text_embedding, search_text,
    _load_indexes / _create_text_index)
  * `services/embedding_service.py` (EmbeddingService: get_text_embedding,
    get_text_embeddings_batch)
  * `services/memory_service.py` (MemoryService: store_conversation_message,
    get_conversation_history, get_user_memories)
  * `services/rag_service.py` (RAGService: _build_context, generate_response,
    _generate_actions)

Numbers use `Rat` in place of IEEE floats (the verified claims concern control
flow, ordering and filtering, not rounding), text is `String` or `List Char`,
Python dicts keyed by int are insertion-ordered association lists, and the
external collaborators (FAISS library, OpenAI client, NocoDB server) appear as
parameters or as explicit models noted at each definition.
-/

/-- An embedding vector (Python `List[float]`, modelled over `Rat`). -/
abbrev Vec := List Rat

/-- Metadata dictionary attached to an indexed entity; only the `title` and
`content` keys are ever read (`RAGService._build_context`), a missing key is
`none`. -/
structure Metadata where
  title : Option String
  content : Option String
deriving DecidableEq

/-- One value of `FAISSService.text_id_map`: the record stored under a faiss id
by `add_text_embedding`. -/
structure EntryInfo where
  entity_id : Int
  entity_type : String
  metadata : Metadata
deriving DecidableEq

/-- One element of the list returned by `FAISSService.search_text`:
`(entity_id, entity_type, score, metadata)`. -/
structure SearchResult where
  entity_id : Int
  entity_type : String
  score : Rat
  metadata : Metadata
deriving DecidableEq

/-- State of the text half of `FAISSService`: the FAISS index contents
(`text_index`, a vector per faiss id, in insertion order) and the
insertion-ordered dict `text_id_map`. -/
structure TextStore where
  vectors : List Vec
  id_map : List (Nat × EntryInfo)
deriving DecidableEq

/-- Python `idx in d` / `d[idx]` on an insertion-ordered int-keyed dict. -/
def dictGet (k : Nat) : List (Nat × EntryInfo) → Option EntryInfo
  | [] => none
  | (k', v) :: rest => if k = k' then some v else dictGet k rest

/-- Python `d[k] = v` on an insertion-ordered int-keyed dict: replace in place
if the key exists, else append. -/
def dictInsert (k : Nat) (v : EntryInfo) : List (Nat × EntryInfo) → List (Nat × EntryInfo)
  | [] => [(k, v)]
  | (k', v') :: rest => if k = k' then (k, v) :: rest else (k', v') :: dictInsert k v rest

/-- `FAISSService._create_text_index`: fresh `IndexFlatIP` and `text_id_map = {}`. -/
def emptyTextStore : TextStore := { vectors := [], id_map := [] }

/-- Contents of one persisted artifact as found on disk: absent, present but
unreadable (the library read raises), or readable with the given contents. -/
inductive FileData (α : Type) where
  | missing
  | corrupt
  | ok (contents : α)
deriving DecidableEq

/-- `FAISSService._load_indexes`, text half, as executed at construction time
(`text_id_map` starts `{}`).  If the index file is absent, `_create_text_index`.
If present: `faiss.read_index`; a raise lands in the `except` branch which
calls `_create_text_index` (resetting both fields).  On success, the id map is
loaded only when its file exists; a raise during `json.load` also lands in the
`except` branch.  No comparison of `ntotal` against the map size is made. -/
def loadTextIndexes (indexFile : FileData (List Vec))
    (mapFile : FileData (List (Nat × EntryInfo))) : TextStore :=
  match indexFile with
  | .missing => emptyTextStore
  | .corrupt => emptyTextStore
  | .ok vs =>
    match mapFile with
    | .missing => { vectors := vs, id_map := [] }
    | .corrupt => emptyTextStore
    | .ok m => { vectors := vs, id_map := m }

/-- `FAISSService.add_text_embedding`.  `faiss.normalize_L2` is an external
library call (its result is irrational in general), passed in as `nrm`.
Returns the assigned faiss id and the updated store. -/
def addTextEmbedding (nrm : Vec → Vec) (st : TextStore) (embedding : Vec)
    (entity_id : Int) (entity_type : String) (metadata : Metadata) : Nat × TextStore :=
  let vector := nrm embedding
  let faiss_id := st.vectors.length
  let vectors := st.vectors ++ [vector]
  let id_map := dictInsert faiss_id ⟨entity_id, entity_type, metadata⟩ st.id_map
  (faiss_id, { vectors := vectors, id_map := id_map })

/-- Inner product of two vectors (what `IndexFlatIP` scores by). -/
def dot (u v : Vec) : Rat := (List.zipWith (fun a b => a * b) u v).sum

/-- Descending-score comparison used to model FAISS result ordering. -/
def scoreLe (a b : Rat × Nat) : Bool := decide (b.1 ≤ a.1)

/-- Insert a scored candidate into a descending-by-score list, before the
first entry scoring no higher (so equal scores keep ascending-id order). -/
def insertByScore (c : Rat × Nat) : List (Rat × Nat) → List (Rat × Nat)
  | [] => [c]
  | d :: rest => if scoreLe c d then c :: d :: rest else d :: insertByScore c rest

/-- Stable insertion sort, descending by score. -/
def sortByScoreDesc : List (Rat × Nat) → List (Rat × Nat)
  | [] => []
  | c :: rest => insertByScore c (sortByScoreDesc rest)

/-- Model of the external `faiss.IndexFlatIP.search(query, k)` call: score every
stored vector by inner product with the query, order descending by score (ties
by ascending id), and return the first `k` as `(score, faiss_id)` pairs.
(`k ≤ ntotal` at the one call site, so the `-1` padding ids FAISS emits for
`k > ntotal` never occur.) -/
def faissSearch (vectors : List Vec) (q : Vec) (k : Nat) : List (Rat × Nat) :=
  (sortByScoreDesc ((List.range vectors.length).map
    (fun i => (dot q (vectors.getD i []), i)))).take k

/-- Python truthiness of the `entity_types: Optional[List[str]]` argument:
`None` and `[]` are falsy. -/
def truthy (ets : Option (List String)) : Bool :=
  match ets with
  | none => false
  | some l => !l.isEmpty

/-- The candidate loop body of `FAISSService.search_text`: walk the raw
candidates in order, skip those under `min_score`, those with no `text_id_map`
entry, and (when the filter argument is truthy) those whose entity type is not
in the filter list; append survivors and stop as soon as `top_k` are held. -/
def searchLoop (idm : List (Nat × EntryInfo)) (min_score : Rat)
    (ets : Option (List String)) (top_k : Nat) :
    List (Rat × Nat) → List SearchResult → List SearchResult
  | [], results => results
  | (score, idx) :: rest, results =>
    if score < min_score then searchLoop idm min_score ets top_k rest results
    else
      match dictGet idx idm with
      | none => searchLoop idm min_score ets top_k rest results
      | some info =>
        if truthy ets && !(decide (info.entity_type ∈ ets.getD [])) then
          searchLoop idm min_score ets top_k rest results
        else
          let results' := results ++ [⟨info.entity_id, info.entity_type, score, info.metadata⟩]
          if top_k ≤ results'.length then results'
          else searchLoop idm min_score ets top_k rest results'

/-- `FAISSService.search_text`: empty index short-circuits to `[]`; otherwise
normalize the query, fetch `search_k = min(top_k * 3, ntotal)` raw candidates,
and run the filter loop. -/
def searchText (nrm : Vec → Vec) (st : TextStore) (query : Vec) (top_k : Nat)
    (min_score : Rat) (entity_types : Option (List String)) : List SearchResult :=
  if st.vectors.length = 0 then []
  else
    let v := nrm query
    let search_k := min (top_k * 3) st.vectors.length
    let cands := faissSearch st.vectors v search_k
    searchLoop st.id_map min_score entity_types top_k cands []

/-- Whether one raw candidate survives the `search_text` filters, and if so the
result row built from it (spec-side restatement of the loop body for one
candidate, used to state what `search_text` computes). -/
def keepCandidate (idm : List (Nat × EntryInfo)) (min_score : Rat)
    (ets : Option (List String)) (c : Rat × Nat) : Option SearchResult :=
  if c.1 < min_score then none
  else
    match dictGet c.2 idm with
    | none => none
    | some info =>
      if truthy ets && !(decide (info.entity_type ∈ ets.getD [])) then none
      else some ⟨info.entity_id, info.entity_type, c.1, info.metadata⟩

/-- The search procedure as the specification words it: take the
`min(3 × top_k, total_count)` highest-scoring raw candidates in descending
score order, keep those passing the type and min-score filters, return the
first `top_k` survivors. -/
def searchTextSpec (nrm : Vec → Vec) (st : TextStore) (query : Vec) (top_k : Nat)
    (min_score : Rat) (entity_types : Option (List String)) : List SearchResult :=
  let window := faissSearch st.vectors (nrm query) (min (3 * top_k) st.vectors.length)
  (window.filterMap (keepCandidate st.id_map min_score entity_types)).take top_k

/-- The store invariant the spec states, sizes only. -/
def SizeInv (st : TextStore) : Prop := st.id_map.length = st.vectors.length

/-- Well-formedness actually maintained by the code along add-only histories:
the id map holds exactly the keys `0 .. vector_count - 1`, in order. -/
def WellFormed (st : TextStore) : Prop :=
  st.id_map.map Prod.fst = List.range st.vectors.length

/-- Text as Python sees it for the embedding service: a sequence of characters. -/
abbrev Txt := List Char

/-- A provider embedding (`response.data[i].embedding`). -/
abbrev Emb := List Rat

/-- Python `str.strip()`: drop whitespace from both ends. -/
def pyStrip (s : Txt) : Txt :=
  ((s.dropWhile Char.isWhitespace).reverse.dropWhile Char.isWhitespace).reverse

/-- `EmbeddingService.get_text_embedding`, instrumented: besides the result it
returns the list of texts submitted to the provider (empty when no provider
call is made).  `client` is `self.openai_client` (`none` when `OPENAI_API_KEY`
is absent); `provider` is the external `embeddings.create` call, whose raise is
the `.error` case and is caught by the `except` branch returning `None`. -/
def getTextEmbeddingRun (client : Option Unit) (provider : Txt → Except String Emb)
    (text : Txt) : Option Emb × List Txt :=
  match client with
  | none => (none, [])
  | some _ =>
    let stripped := pyStrip text
    if stripped = [] then (none, [])
    else
      let submitted := if 8000 < stripped.length then stripped.take 8000 else stripped
      match provider submitted with
      | .ok e => (some e, [submitted])
      | .error _ => (none, [submitted])

/-- `EmbeddingService.get_text_embedding` proper: just the returned value. -/
def getTextEmbedding (client : Option Unit) (provider : Txt → Except String Emb)
    (text : Txt) : Option Emb :=
  (getTextEmbeddingRun client provider text).1

/-- The batch slices `texts[i:i+batch_size]` produced by
`for i in range(0, len(texts), batch_size)`.  A zero step is a Python
`ValueError` (never used: the default is 100); modelled as no batches. -/
def chunks : Nat → List Txt → List (List Txt)
  | _, [] => []
  | 0, _ :: _ => []
  | bs + 1, x :: xs => ((x :: xs).take (bs + 1)) :: chunks (bs + 1) ((x :: xs).drop (bs + 1))
termination_by _ l => l.length
decreasing_by simp [List.drop]; omega

/-- The per-batch cleaning `[t.strip()[:8000] if t else "" for t in batch]`
(truthiness: an empty string maps to an empty string untouched). -/
def cleanBatch (b : List Txt) : List Txt :=
  b.map (fun t => if t = [] then [] else (pyStrip t).take 8000)

/-- What one loop iteration of `get_text_embeddings_batch` extends `results`
with: the returned embeddings on success, `None` per batch element when the
provider call raises (caught per batch). -/
def batchBlock (provider : List Txt → Except String (List Emb))
    (batch : List Txt) : List (Option Emb) :=
  match provider (cleanBatch batch) with
  | .ok embs => embs.map some
  | .error _ => List.replicate batch.length none

/-- `EmbeddingService.get_text_embeddings_batch`: with no client, `None` per
input; otherwise one provider call per batch, concatenating the per-batch
blocks in input order. -/
def getTextEmbeddingsBatch (client : Option Unit)
    (provider : List Txt → Except String (List Emb)) (texts : List Txt)
    (batch_size : Nat) : List (Option Emb) :=
  match client with
  | none => List.replicate texts.length none
  | some _ => ((chunks batch_size texts).map (batchBlock provider)).flatten

/-- One conversation record as built by `store_conversation_message` (the
`datetime.utcnow()` timestamp is modelled by a per-state logical clock). -/
structure Message where
  sessionId : String
  userId : Option Int
  role : String
  content : String
  timestamp : Nat
deriving DecidableEq

/-- One user-memory record (the fields `_build_context` reads). -/
structure MemRecord where
  userId : Int
  memoryType : String
  content : String
deriving DecidableEq

/-- State of `MemoryService` together with its external NocoDB tables.
`convConfigured` models a non-empty `CONVERSATION_TABLE_ID`, `memConfigured` a
non-empty `USER_MEMORY_TABLE_ID`; `requestOk` models `_make_request` reaching
the server and succeeding (token present, no network error) — when false every
request returns `None` and the code falls back to the in-process caches. -/
structure MemoryState where
  convConfigured : Bool
  memConfigured : Bool
  requestOk : Bool
  durable : List Message
  memDurable : List MemRecord
  cache : List (String × List Message)
  memCache : List (Int × List MemRecord)
  clock : Nat
deriving DecidableEq

/-- `self._conversation_cache.get(sid, [])` (insertion of a fresh key appends). -/
def cacheGet (sid : String) : List (String × List Message) → List Message
  | [] => []
  | (s, msgs) :: rest => if sid = s then msgs else cacheGet sid rest

/-- `self._conversation_cache[sid] = msgs`. -/
def cacheSet (sid : String) (msgs : List Message) :
    List (String × List Message) → List (String × List Message)
  | [] => [(sid, msgs)]
  | (s, m) :: rest => if sid = s then (sid, msgs) :: rest else (s, m) :: cacheSet sid msgs rest

/-- `self._memory_cache.get(uid, [])`. -/
def memCacheGet (uid : Int) : List (Int × List MemRecord) → List MemRecord
  | [] => []
  | (u, ms) :: rest => if uid = u then ms else memCacheGet uid rest

/-- Python slice `l[-k:]`: the last `k` elements, except that `k = 0` yields the
whole list (`l[-0:] = l[0:]`). -/
def pyLastN (k : Nat) (l : List Message) : List Message :=
  if k = 0 then l else l.drop (l.length - k)

/-- Descending-timestamp comparison: the NocoDB `sort=-timestamp` key. -/
def tsLe (a b : Message) : Bool := decide (b.timestamp ≤ a.timestamp)

/-- `MemoryService.store_conversation_message`: build the record (timestamp
drawn from the clock), POST it to the conversation table when that path works,
otherwise append to the per-session cache and cut the cache back to its last 50
entries when it exceeds 50. -/
def storeConversationMessage (st : MemoryState) (sid : String) (uid : Option Int)
    (role content : String) : MemoryState :=
  let msg : Message := ⟨sid, uid, role, content, st.clock⟩
  let st' := { st with clock := st.clock + 1 }
  if st.convConfigured && st.requestOk then
    { st' with durable := st.durable ++ [msg] }
  else
    let c := cacheGet sid st.cache ++ [msg]
    let c := if 50 < c.length then pyLastN 50 c else c
    { st' with cache := cacheSet sid c st.cache }

/-- `MemoryService.get_conversation_history`: durable path = GET with
`where sessionId eq`, `sort=-timestamp`, `limit`, then `list(reversed(...))`;
the server-side sort/limit is modelled as an actual descending merge sort
followed by `take`.  Fallback path = `cache.get(sid, [])[-limit:]`. -/
def getConversationHistory (st : MemoryState) (sid : String) (limit : Nat) :
    List Message :=
  if st.convConfigured && st.requestOk then
    (((st.durable.filter (fun m => decide (m.sessionId = sid))).mergeSort tsLe).take limit).reverse
  else
    pyLastN limit (cacheGet sid st.cache)

/-- `MemoryService.get_user_memories`: durable path = GET with a `userId`
equality filter (plus a `memoryType` one when given), `sort=-createdAt`,
`limit`; records are created in insertion order, so the server-side
descending-creation sort is modelled as `reverse`.  Fallback path = cache list,
optionally filtered by type, first `limit`. -/
def getUserMemories (st : MemoryState) (uid : Int) (memory_type : Option String)
    (limit : Nat) : List MemRecord :=
  if st.memConfigured && st.requestOk then
    (((st.memDurable.filter (fun m =>
        decide (m.userId = uid) &&
        (match memory_type with
         | none => true
         | some t => decide (m.memoryType = t)))).reverse).take limit)
  else
    let ms := memCacheGet uid st.memCache
    let ms := match memory_type with
      | none => ms
      | some t => ms.filter (fun m => decide (m.memoryType = t))
    ms.take limit

/-- Repeated `store_conversation_message` for a list of (role, content) pairs. -/
def storeMany (st : MemoryState) (sid : String) (uid : Option Int) :
    List (String × String) → MemoryState
  | [] => st
  | (r, c) :: rest => storeMany (storeConversationMessage st sid uid r c) sid uid rest

/-- The message records a run of `store_conversation_message` calls builds,
with timestamps drawn from consecutive clock values starting at `clock`. -/
def renderMsgs (sid : String) (uid : Option Int) (clock : Nat) :
    List (String × String) → List Message
  | [] => []
  | (r, c) :: rest => ⟨sid, uid, r, c, clock⟩ :: renderMsgs sid uid (clock + 1) rest

/-- One entry of the OpenAI chat `messages` list. -/
structure ChatMsg where
  role : String
  content : String
deriving DecidableEq

/-- What `generate_response` extracts from a successful completion:
`completion.choices[0].message.content` and `completion.usage.total_tokens`
(0 when usage is absent). -/
structure Completion where
  text : String
  tokens : Nat

/-- One element of the `sources` list built by `RAGService._build_context`. -/
structure SourceItem where
  entity_id : Int
  entity_type : String
  title : String
  relevance_score : Rat
  snippet : Option String
deriving DecidableEq

/-- One element of the `suggested_actions` list (`_generate_actions`); the
`payload` dict is flattened into its two fields. -/
structure SuggestedAction where
  action_type : String
  label : String
  screen : String
  id : Int
deriving DecidableEq

/-- The dict `RAGService.generate_response` returns. -/
structure ChatResult where
  success : Bool
  message : String
  sources : List SourceItem
  suggested_actions : List SuggestedAction
  session_id : String
  tokens_used : Nat
  response_time_ms : Nat
  error : Option String
deriving DecidableEq

/-- Environment of one `RAGService` call: its own OpenAI client
(`none` when `OPENAI_API_KEY` is absent), the embedding service state, the
FAISS store, the external chat-completion call (a raise is `.error`), the uuid
generated for a missing session id, and the measured elapsed milliseconds. -/
structure RagEnv where
  ragClient : Option Unit
  embClient : Option Unit
  embProvider : Txt → Except String Emb
  nrm : Vec → Vec
  store : TextStore
  callModel : List ChatMsg → Except String Completion
  newSessionId : String
  elapsedMs : Nat

/-- Python truthiness of `user_id: Optional[int]` (`None` and `0` are falsy). -/
def intTruthy (o : Option Int) : Bool :=
  match o with
  | none => false
  | some i => decide (i ≠ 0)

/-- `RAGService._build_context`: embed the query (a falsy — missing or empty —
embedding short-circuits to no context), search with `top_k = max_items` and
`min_score = 0.5` and no type filter, render each hit as a context block and a
source row, and prepend a user-preferences block when a truthy user id has
stored memories. -/
def buildContext (env : RagEnv) (mem : MemoryState) (query : String)
    (user_id : Option Int) (max_items : Nat) : String × List SourceItem :=
  match getTextEmbedding env.embClient env.embProvider query.data with
  | none => ("", [])
  | some qe =>
    if qe = [] then ("", [])
    else
      let results := searchText env.nrm env.store qe max_items ((1 : Rat)/2) none
      let rendered := results.map (fun r =>
        let title := r.metadata.title.getD (r.entity_type ++ " #" ++ toString r.entity_id)
        let content := r.metadata.content.getD ""
        (("[" ++ r.entity_type.toUpper ++ "] " ++ title ++ ":\n" ++ content.take 500),
         ({ entity_id := r.entity_id, entity_type := r.entity_type, title := title,
            relevance_score := r.score,
            snippet := if content = "" then none else some (content.take 200) } : SourceItem)))
      let context_parts := rendered.map Prod.fst
      let sources := rendered.map Prod.snd
      let context_parts :=
        if intTruthy user_id then
          let mems := getUserMemories mem (user_id.getD 0) none 3
          if mems = [] then context_parts
          else
            ("[USER PREFERENCES]\n" ++
              String.intercalate "\n" (mems.map (fun m => "- " ++ m.content))) :: context_parts
        else context_parts
      (String.intercalate "\n\n" context_parts, sources)

/-- `RAGService._build_system_prompt` (apostrophes written `\x27`). -/
def buildSystemPrompt (context : String) : String :=
  "You are a helpful travel assistant for Da Nang, Vietnam. \nYou help users discover locations, cultural items, festivals, and plan their trips.\n\nUse the following context to answer questions. If the context doesn\x27t contain \nrelevant information, use your general knowledge but mention that.\n\nCONTEXT:\n"
    ++ context ++
  "\n\nGUIDELINES:\n- Be friendly and helpful\n- Provide specific recommendations when possible\n- Include practical information (hours, prices, tips)\n- Respond in the same language as the user\x27s question\n- If asked about something not in context, say so honestly\n"

/-- Python `str.title()`, for the single-word lowercase entity-type tags used
here (capitalize the first letter). -/
def pyTitle (s : String) : String := s.capitalize

/-- `RAGService._generate_actions`: one navigate action per source, first 3. -/
def generateActions (sources : List SourceItem) : List SuggestedAction :=
  (sources.take 3).map (fun s =>
    { action_type := "navigate", label := "View " ++ s.title,
      screen := pyTitle s.entity_type ++ "Detail", id := s.entity_id })

/-- `if not session_id: session_id = str(uuid.uuid4())` (`None` and `""` falsy). -/
def resolveSessionId (env : RagEnv) (session_id : Option String) : String :=
  match session_id with
  | none => env.newSessionId
  | some s => if s = "" then env.newSessionId else s

/-- The `messages` list assembled before the generation call: system prompt
with context, then the last 5 stored messages of the session, then the new
user message. -/
def assembledMessages (env : RagEnv) (mem : MemoryState) (message : String)
    (user_id : Option Int) (sid : String) (max_context_items : Nat) : List ChatMsg :=
  let context := (buildContext env mem message user_id max_context_items).1
  let history := getConversationHistory mem sid 5
  ⟨"system", buildSystemPrompt context⟩ ::
    (history.map (fun m => (⟨m.role, m.content⟩ : ChatMsg)) ++ [⟨"user", message⟩])

/-- The fixed message of the no-client early return. -/
def unavailableMessage : String := "AI service not available"

/-- The fixed message of the `except` branch. -/
def apologyMessage : String := "Sorry, I encountered an error processing your request."

/-- `RAGService.generate_response`: resolve the session id; with no client,
the fixed unavailable result.  Otherwise build context and history, call the
model; a raise anywhere in the `try` block (the model call is the fallible
step — every other dependency catches internally) lands in the `except`
branch returning the fixed apology result with the error string; on success
both exchanged messages are persisted and the success result returned. -/
def generateResponse (env : RagEnv) (mem : MemoryState) (message : String)
    (user_id : Option Int) (session_id : Option String) (max_context_items : Nat)
    (include_sources : Bool) : ChatResult × MemoryState :=
  let sid := resolveSessionId env session_id
  match env.ragClient with
  | none =>
    ({ success := false, message := unavailableMessage, sources := [],
       suggested_actions := [], session_id := sid, tokens_used := 0,
       response_time_ms := 0, error := some "OpenAI client not initialized" }, mem)
  | some _ =>
    let sources := (buildContext env mem message user_id max_context_items).2
    let messages := assembledMessages env mem message user_id sid max_context_items
    match env.callModel messages with
    | .error e =>
      ({ success := false, message := apologyMessage, sources := [],
         suggested_actions := [], session_id := sid, tokens_used := 0,
         response_time_ms := env.elapsedMs, error := some e }, mem)
    | .ok comp =>
      let mem1 := storeConversationMessage mem sid user_id "user" message
      let mem2 := storeConversationMessage mem1 sid user_id "assistant" comp.text
      ({ success := true, message := comp.text,
         sources := if include_sources then sources else [],
         suggested_actions := generateActions sources, session_id := sid,
         tokens_used := comp.tokens, response_time_ms := env.elapsedMs,
         error := none }, mem2)

/-- Concrete store used by witness instantiations: two indexed entities. -/
def sampleStore : TextStore :=
  { vectors := [[1], [(1 : Rat)/2]],
    id_map := [(0, ⟨10, "location", ⟨some "A", some "alpha"⟩⟩),
               (1, ⟨11, "festival", ⟨some "B", some "beta"⟩⟩)] }

/-- Concrete memory state with the volatile backend active. -/
def sampleCacheState : MemoryState :=
  { convConfigured := false, memConfigured := false, requestOk := false,
    durable := [], memDurable := [], cache := [], memCache := [], clock := 0 }

/-- Concrete memory state with the durable backend active and two stored
messages of one session. -/
def sampleDurableState : MemoryState :=
  { convConfigured := true, memConfigured := true, requestOk := true,
    durable := [⟨"s1", some 1, "user", "hello", 0⟩, ⟨"s1", some 1, "assistant", "hi", 1⟩],
    memDurable := [], cache := [], memCache := [], clock := 2 }

/-- Concrete batch provider used by witness instantiations: one empty
embedding per input, so the per-batch length contract holds by computation. -/
def sampleBatchProvider (batch : List Txt) : Except String (List Emb) :=
  Except.ok (batch.map (fun _ => []))

/- ------------------------------------------------------------------ -/
/- Theorems.                                                           -/
/- ------------------------------------------------------------------ -/

theorem dictInsert_not_mem (k : Nat) (v : EntryInfo) (l : List (Nat × EntryInfo))
    (h : k ∉ l.map Prod.fst) : dictInsert k v l = l ++ [(k, v)] := by
  induction l with
  | nil => rfl
  | cons p rest ih =>
    obtain ⟨k', v'⟩ := p
    simp only [List.map_cons, List.mem_cons] at h
    push_neg at h
    simp [dictInsert, h.1, ih h.2]

theorem dictGet_append_self (k : Nat) (v : EntryInfo) (l : List (Nat × EntryInfo))
    (h : k ∉ l.map Prod.fst) : dictGet k (l ++ [(k, v)]) = some v := by
  induction l with
  | nil => simp [dictGet]
  | cons p rest ih =>
    obtain ⟨k', v'⟩ := p
    simp only [List.map_cons, List.mem_cons] at h
    push_neg at h
    simp [dictGet, h.1, ih h.2]

/-- C1: the claim says a load with the vector file present but the metadata
file missing (or with disagreeing counts) leaves the store empty; on the input
"index file holds one vector, map file missing" the loaded store holds one
vector, so the claim is false. -/
theorem C1_load_counterexample :
    ¬ ((loadTextIndexes (FileData.ok [[(1 : Rat)]]) FileData.missing).vectors = [] ∧
       (loadTextIndexes (FileData.ok [[(1 : Rat)]]) FileData.missing).id_map = []) := by
  decide

/-- C1 (amended): what `_load_indexes` actually does, case by case: a missing
or unreadable vector file gives the empty store, as does a vector file that
loads while the metadata file is unreadable; but a loaded vector file with a
missing metadata file keeps the vectors against an empty table, and when both
files load the pair is kept exactly as read, with no count-consistency
check — so the two may disagree after load. -/
theorem C1_load_characterization (vs : List Vec) (m : List (Nat × EntryInfo))
    (mf : FileData (List (Nat × EntryInfo))) :
    loadTextIndexes FileData.missing mf = emptyTextStore ∧
    loadTextIndexes FileData.corrupt mf = emptyTextStore ∧
    loadTextIndexes (FileData.ok vs) FileData.corrupt = emptyTextStore ∧
    loadTextIndexes (FileData.ok vs) FileData.missing = { vectors := vs, id_map := [] } ∧
    loadTextIndexes (FileData.ok vs) (FileData.ok m) = { vectors := vs, id_map := m } :=
  ⟨rfl, rfl, rfl, rfl, rfl⟩

/-- C2: the claim requires `|metadata table| = vector count` after every
completed load; loading an index file holding one vector with its map file
missing yields 0 metadata entries against 1 vector, so the claim is false. -/
theorem C2_invariant_counterexample :
    (loadTextIndexes (FileData.ok [[(2 : Rat)]]) FileData.missing).id_map.length ≠
      (loadTextIndexes (FileData.ok [[(2 : Rat)]]) FileData.missing).vectors.length := by
  decide

/-- C2 (amended): along add-only histories the invariant does hold: from any
well-formed state (id keys exactly `0 .. count-1`, as in a fresh store) an add
assigns id = vector count before the add, stores the paired metadata entry
under that id, and preserves well-formedness and the size invariant; a load
re-establishes the size invariant only when the loaded pair agrees in size,
and a load of a vector file without its map file violates it unchecked. -/
theorem C2_invariant_add (nrm : Vec → Vec) (st : TextStore) (emb : Vec)
    (eid : Int) (et : String) (md : Metadata) (h : WellFormed st) :
    (addTextEmbedding nrm st emb eid et md).1 = st.vectors.length ∧
    WellFormed (addTextEmbedding nrm st emb eid et md).2 ∧
    SizeInv (addTextEmbedding nrm st emb eid et md).2 ∧
    dictGet st.vectors.length (addTextEmbedding nrm st emb eid et md).2.id_map =
      some ⟨eid, et, md⟩ ∧
    WellFormed emptyTextStore ∧
    (∀ (vs : List Vec) (m : List (Nat × EntryInfo)), m.length = vs.length →
      SizeInv (loadTextIndexes (FileData.ok vs) (FileData.ok m))) := by
  have h' : List.map Prod.fst st.id_map = List.range st.vectors.length := h
  have hnotmem : st.vectors.length ∉ st.id_map.map Prod.fst := by
    rw [h']
    simp
  have hins : dictInsert st.vectors.length ⟨eid, et, md⟩ st.id_map =
      st.id_map ++ [(st.vectors.length, ⟨eid, et, md⟩)] :=
    dictInsert_not_mem _ _ _ hnotmem
  have hmaplen : st.id_map.length = st.vectors.length := by
    have := congrArg List.length h'
    simpa using this
  refine ⟨rfl, ?_, ?_, ?_, ?_, ?_⟩
  · show (dictInsert st.vectors.length ⟨eid, et, md⟩ st.id_map).map Prod.fst =
      List.range (st.vectors ++ [nrm emb]).length
    rw [hins]
    simp [List.range_succ, h']
  · show (dictInsert st.vectors.length ⟨eid, et, md⟩ st.id_map).length =
      (st.vectors ++ [nrm emb]).length
    rw [hins]
    simp [hmaplen]
  · show dictGet st.vectors.length (dictInsert st.vectors.length ⟨eid, et, md⟩ st.id_map) =
      some ⟨eid, et, md⟩
    rw [hins]
    exact dictGet_append_self _ _ _ hnotmem
  · show (emptyTextStore.id_map.map Prod.fst) = List.range emptyTextStore.vectors.length
    rfl
  · intro vs m hm
    show (loadTextIndexes (FileData.ok vs) (FileData.ok m)).id_map.length =
      (loadTextIndexes (FileData.ok vs) (FileData.ok m)).vectors.length
    simpa [loadTextIndexes] using hm

/-- C2 witness: the amended statement applied to a concrete well-formed store
(the fresh empty one) and a concrete add. -/
theorem C2_invariant_add_witness :
    WellFormed emptyTextStore ∧
    ((addTextEmbedding id emptyTextStore [(1 : Rat)] 7 "location" ⟨none, none⟩).1 = 0 ∧
     WellFormed (addTextEmbedding id emptyTextStore [(1 : Rat)] 7 "location" ⟨none, none⟩).2 ∧
     SizeInv (addTextEmbedding id emptyTextStore [(1 : Rat)] 7 "location" ⟨none, none⟩).2 ∧
     dictGet 0 (addTextEmbedding id emptyTextStore [(1 : Rat)] 7 "location" ⟨none, none⟩).2.id_map =
       some ⟨7, "location", ⟨none, none⟩⟩ ∧
     WellFormed emptyTextStore ∧
     (∀ (vs : List Vec) (m : List (Nat × EntryInfo)), m.length = vs.length →
       SizeInv (loadTextIndexes (FileData.ok vs) (FileData.ok m)))) := by
  have h : WellFormed emptyTextStore := rfl
  exact ⟨h, C2_invariant_add id emptyTextStore [(1 : Rat)] 7 "location" ⟨none, none⟩ h⟩

/-- C5: degraded-mode semantics of `generate_response`: with no configured
generative client the fixed unavailable result is returned, and when the
provider call made during generation raises, the fixed apology result with the
captured error string, empty sources and empty suggested actions is returned;
both are plain returns of a total function, never an uncaught fault. -/
theorem C5_generate_response_degraded (env : RagEnv) (mem : MemoryState)
    (message : String) (uid : Option Int) (session_id : Option String)
    (mci : Nat) (inc : Bool) :
    (env.ragClient = none →
      (generateResponse env mem message uid session_id mci inc).1 =
        { success := false, message := unavailableMessage, sources := [],
          suggested_actions := [], session_id := resolveSessionId env session_id,
          tokens_used := 0, response_time_ms := 0,
          error := some "OpenAI client not initialized" }) ∧
    (∀ e : String, env.ragClient = some () →
      env.callModel
          (assembledMessages env mem message uid (resolveSessionId env session_id) mci) =
        Except.error e →
      (generateResponse env mem message uid session_id mci inc).1 =
        { success := false, message := apologyMessage, sources := [],
          suggested_actions := [], session_id := resolveSessionId env session_id,
          tokens_used := 0, response_time_ms := env.elapsedMs, error := some e }) := by
  constructor
  · intro h
    simp [generateResponse, h]
  · intro e hcl hcall
    simp [generateResponse, hcl, hcall]

/-- C5 witness: a concrete environment with no client, and one whose model
call raises. -/
theorem C5_generate_response_degraded_witness :
    (generateResponse
        { ragClient := none, embClient := none,
          embProvider := fun _ => Except.error "off", nrm := id,
          store := sampleStore, callModel := fun _ => Except.error "boom",
          newSessionId := "fresh", elapsedMs := 12 }
        sampleCacheState "hi" none none 5 true).1 =
      { success := false, message := unavailableMessage, sources := [],
        suggested_actions := [], session_id := "fresh", tokens_used := 0,
        response_time_ms := 0, error := some "OpenAI client not initialized" } ∧
    ({ ragClient := some (), embClient := none,
       embProvider := fun _ => Except.error "off", nrm := id,
       store := sampleStore, callModel := fun _ => Except.error "boom",
       newSessionId := "fresh", elapsedMs := 12 } : RagEnv).callModel
        (assembledMessages
          { ragClient := some (), embClient := none,
            embProvider := fun _ => Except.error "off", nrm := id,
            store := sampleStore, callModel := fun _ => Except.error "boom",
            newSessionId := "fresh", elapsedMs := 12 }
          sampleCacheState "hi" none "fresh" 5) = Except.error "boom" ∧
    (generateResponse
        { ragClient := some (), embClient := none,
          embProvider := fun _ => Except.error "off", nrm := id,
          store := sampleStore, callModel := fun _ => Except.error "boom",
          newSessionId := "fresh", elapsedMs := 12 }
        sampleCacheState "hi" none none 5 true).1 =
      { success := false, message := apologyMessage, sources := [],
        suggested_actions := [], session_id := "fresh", tokens_used := 0,
        response_time_ms := 12, error := some "boom" } := by
  refine ⟨?_, rfl, ?_⟩
  · exact (C5_generate_response_degraded
      { ragClient := none, embClient := none,
        embProvider := fun _ => Except.error "off", nrm := id,
        store := sampleStore, callModel := fun _ => Except.error "boom",
        newSessionId := "fresh", elapsedMs := 12 }
      sampleCacheState "hi" none none 5 true).1 rfl
  · exact (C5_generate_response_degraded _ sampleCacheState "hi" none none 5 true).2
      "boom" rfl rfl

/-- C9: an input that strips to nothing returns the unavailable outcome with
no provider call made (the call trace is empty), whatever the client state. -/
theorem C9_empty_input (client : Option Unit) (provider : Txt → Except String Emb)
    (text : Txt) (h : pyStrip text = []) :
    getTextEmbeddingRun client provider text = (none, []) := by
  cases client with
  | none => rfl
  | some _ => simp [getTextEmbeddingRun, h]

/-- C9 witness: a whitespace-only input, a configured client, and a provider
that would succeed if it were called. -/
theorem C9_empty_input_witness :
    pyStrip [' '] = [] ∧
    getTextEmbeddingRun (some ()) (fun _ => Except.ok [(2 : Rat)]) [' '] = (none, []) := by
  have h : pyStrip [' '] = [] := by decide
  exact ⟨h, C9_empty_input (some ()) (fun _ => Except.ok [(2 : Rat)]) [' '] h⟩

theorem pyStrip_replicate_a (n : Nat) :
    pyStrip (List.replicate n 'a') = List.replicate n 'a' := by
  have hdrop : ∀ m : Nat, (List.replicate m 'a').dropWhile Char.isWhitespace =
      List.replicate m 'a' := by
    intro m
    cases m with
    | zero => rfl
    | succ m => simp [List.replicate_succ, List.dropWhile_cons]
  simp [pyStrip, hdrop, List.reverse_replicate]

set_option maxRecDepth 8000 in
/-- C7: for a configured client and an input whose stripped form exceeds 8000
characters, exactly the first 8000 characters of the stripped text are
submitted to the provider, and the outcome is the provider's (success gives
the embedding, a provider raise gives the unavailable outcome) — the input is
never rejected for its length. -/
theorem C7_truncation (provider : Txt → Except String Emb) (text : Txt)
    (h : 8000 < (pyStrip text).length) :
    getTextEmbeddingRun (some ()) provider text =
      (match provider ((pyStrip text).take 8000) with
       | .ok e => (some e, [(pyStrip text).take 8000])
       | .error _ => (none, [(pyStrip text).take 8000])) := by
  have hne : ¬(pyStrip text = []) := by
    intro hq
    rw [hq] at h
    simp at h
  simp only [getTextEmbeddingRun, if_neg hne, if_pos h]

set_option maxRecDepth 8000 in
/-- C7 witness: 8001 copies of a non-whitespace character. -/
theorem C7_truncation_witness :
    8000 < (pyStrip (List.replicate 8001 'a')).length ∧
    getTextEmbeddingRun (some ()) (fun _ => Except.ok [(3 : Rat)])
        (List.replicate 8001 'a') =
      (some [(3 : Rat)], [(pyStrip (List.replicate 8001 'a')).take 8000]) := by
  have h : 8000 < (pyStrip (List.replicate 8001 'a')).length := by
    rw [pyStrip_replicate_a, List.length_replicate]
    omega
  exact ⟨h, C7_truncation (fun _ => Except.ok [(3 : Rat)]) (List.replicate 8001 'a') h⟩

theorem keepCandidate_score (idm : List (Nat × EntryInfo)) (ms : Rat)
    (ets : Option (List String)) (c : Rat × Nat) (r : SearchResult)
    (h : keepCandidate idm ms ets c = some r) : r.score = c.1 := by
  unfold keepCandidate at h
  split at h
  · exact absurd h (by simp)
  · split at h
    · exact absurd h (by simp)
    · split at h
      · exact absurd h (by simp)
      · cases h
        rfl

theorem searchLoop_eq_filterMap (idm : List (Nat × EntryInfo)) (ms : Rat)
    (ets : Option (List String)) (k : Nat) :
    ∀ (cands : List (Rat × Nat)) (acc : List SearchResult), acc.length < k →
      searchLoop idm ms ets k cands acc =
        acc ++ (cands.filterMap (keepCandidate idm ms ets)).take (k - acc.length) := by
  intro cands
  induction cands with
  | nil => intro acc _; simp [searchLoop]
  | cons c rest ih =>
    intro acc hlt
    obtain ⟨score, idx⟩ := c
    by_cases hs : score < ms
    · have hstep : searchLoop idm ms ets k ((score, idx) :: rest) acc =
          searchLoop idm ms ets k rest acc := by
        simp [searchLoop, hs]
      have hkeep : keepCandidate idm ms ets (score, idx) = none := by
        simp [keepCandidate, hs]
      rw [hstep, ih acc hlt, List.filterMap_cons, hkeep]
    · cases hg : dictGet idx idm with
      | none =>
        have hstep : searchLoop idm ms ets k ((score, idx) :: rest) acc =
            searchLoop idm ms ets k rest acc := by
          simp [searchLoop, hs, hg]
        have hkeep : keepCandidate idm ms ets (score, idx) = none := by
          simp [keepCandidate, hs, hg]
        rw [hstep, ih acc hlt, List.filterMap_cons, hkeep]
      | some info =>
        by_cases hf : (truthy ets && !(decide (info.entity_type ∈ ets.getD []))) = true
        · have hstep : searchLoop idm ms ets k ((score, idx) :: rest) acc =
              searchLoop idm ms ets k rest acc := by
            simp [searchLoop, hs, hg, hf]
          have hkeep : keepCandidate idm ms ets (score, idx) = none := by
            simp [keepCandidate, hs, hg, hf]
          rw [hstep, ih acc hlt, List.filterMap_cons, hkeep]
        · have hkeep : keepCandidate idm ms ets (score, idx) =
              some ⟨info.entity_id, info.entity_type, score, info.metadata⟩ := by
            simp [keepCandidate, hs, hg, hf]
          rw [List.filterMap_cons, hkeep]
          by_cases hk : k ≤ acc.length + 1
          · have hkeq : k = acc.length + 1 := le_antisymm hk hlt
            have hstep : searchLoop idm ms ets k ((score, idx) :: rest) acc =
                acc ++ [⟨info.entity_id, info.entity_type, score, info.metadata⟩] := by
              simp [searchLoop, hs, hg, hf, hk]
            rw [hstep, hkeq]
            simp [List.take_succ_cons]
          · push_neg at hk
            have hlt' : (acc ++ [(⟨info.entity_id, info.entity_type, score, info.metadata⟩ : SearchResult)]).length < k := by
              simpa using hk
            have hstep : searchLoop idm ms ets k ((score, idx) :: rest) acc =
                searchLoop idm ms ets k rest
                  (acc ++ [⟨info.entity_id, info.entity_type, score, info.metadata⟩]) := by
              have hnotle : ¬(k ≤ (acc ++ [(⟨info.entity_id, info.entity_type, score, info.metadata⟩ : SearchResult)]).length) := by
                simpa using hk
              simp [searchLoop, hs, hg, hf]
              intro hc
              exact absurd (by simpa using hc) (Nat.not_le_of_lt hk)
            rw [hstep, ih _ hlt']
            have harith : k - acc.length = (k - (acc.length + 1)) + 1 := by omega
            rw [harith, List.take_succ_cons]
            simp

theorem mem_insertByScore (c x : Rat × Nat) (l : List (Rat × Nat)) :
    x ∈ insertByScore c l ↔ x = c ∨ x ∈ l := by
  induction l with
  | nil => simp [insertByScore]
  | cons d rest ih =>
    unfold insertByScore
    by_cases h : scoreLe c d
    · simp [h]
    · simp only [if_neg h, List.mem_cons, ih]
      tauto

theorem insertByScore_pairwise (c : Rat × Nat) (l : List (Rat × Nat))
    (h : List.Pairwise (fun a b : Rat × Nat => b.1 ≤ a.1) l) :
    List.Pairwise (fun a b : Rat × Nat => b.1 ≤ a.1) (insertByScore c l) := by
  induction l with
  | nil => simp [insertByScore]
  | cons d rest ih =>
    rcases List.pairwise_cons.mp h with ⟨hd, htail⟩
    unfold insertByScore
    by_cases hle : scoreLe c d
    · rw [if_pos hle]
      have hcd : d.1 ≤ c.1 := of_decide_eq_true hle
      refine List.pairwise_cons.mpr ⟨?_, h⟩
      intro x hx
      rcases List.mem_cons.mp hx with hx | hx
      · exact hx ▸ hcd
      · exact le_trans (hd x hx) hcd
    · rw [if_neg hle]
      have hdc : c.1 ≤ d.1 := by
        have : ¬(d.1 ≤ c.1) := fun hc => hle (decide_eq_true hc)
        exact le_of_lt (lt_of_not_le this)
      refine List.pairwise_cons.mpr ⟨?_, ih htail⟩
      intro x hx
      rcases (mem_insertByScore c x rest).mp hx with hx | hx
      · exact hx ▸ hdc
      · exact hd x hx

theorem sortByScoreDesc_pairwise (l : List (Rat × Nat)) :
    List.Pairwise (fun a b : Rat × Nat => b.1 ≤ a.1) (sortByScoreDesc l) := by
  induction l with
  | nil => simp [sortByScoreDesc]
  | cons c rest ih => exact insertByScore_pairwise c _ ih

theorem faissSearch_sorted (vectors : List Vec) (q : Vec) (k : Nat) :
    List.Pairwise (fun a b : Rat × Nat => b.1 ≤ a.1) (faissSearch vectors q k) :=
  List.Pairwise.sublist (List.take_sublist _ _) (sortByScoreDesc_pairwise _)

theorem sorted_filterMap_keep (idm : List (Nat × EntryInfo)) (ms : Rat)
    (ets : Option (List String)) (l : List (Rat × Nat))
    (h : List.Pairwise (fun a b : Rat × Nat => b.1 ≤ a.1) l) :
    List.Pairwise (fun a b : SearchResult => b.score ≤ a.score)
      (l.filterMap (keepCandidate idm ms ets)) := by
  induction l with
  | nil => simp
  | cons c rest ih =>
    rcases List.pairwise_cons.mp h with ⟨hhead, htail⟩
    rw [List.filterMap_cons]
    cases hk : keepCandidate idm ms ets c with
    | none => exact ih htail
    | some r =>
      refine List.pairwise_cons.mpr ⟨?_, ih htail⟩
      intro r' hr'
      rcases List.mem_filterMap.mp hr' with ⟨c', hc', hk'⟩
      rw [keepCandidate_score idm ms ets c' r' hk', keepCandidate_score idm ms ets c r hk]
      exact hhead c' hc'

theorem searchText_eq_spec (nrm : Vec → Vec) (st : TextStore) (q : Vec) (k : Nat)
    (ms : Rat) (ets : Option (List String)) :
    searchText nrm st q k ms ets = searchTextSpec nrm st q k ms ets := by
  unfold searchText searchTextSpec
  by_cases h0 : st.vectors.length = 0
  · simp [h0, faissSearch]
  · rw [if_neg h0]
    by_cases hk : k = 0
    · subst hk
      simp [faissSearch, searchLoop]
    · have hkpos : (0 : Nat) < k := Nat.pos_of_ne_zero hk
      have := searchLoop_eq_filterMap st.id_map ms ets k
        (faissSearch st.vectors (nrm q) (min (k * 3) st.vectors.length)) [] (by simpa using hkpos)
      rw [this]
      simp [Nat.mul_comm]

/-- C3: with an entity-type filter supplied, `search_text` computes exactly the
spec-side procedure: the `min(3 × top_k, total_count)` highest-scoring raw
candidates in descending score order are examined, those passing the type and
min-score filters kept, and collection stops at `top_k` survivors; the result
length is `min(top_k, survivors-in-window)` — so a shortfall of survivors
yields fewer than `top_k` results with no further fetch — and the returned
sequence is ordered highest score first. -/
theorem C3_overfetch_and_filter (nrm : Vec → Vec) (st : TextStore) (q : Vec)
    (top_k : Nat) (ms : Rat) (ets : Option (List String))
    (_hfilter : truthy ets = true) :
    searchText nrm st q top_k ms ets = searchTextSpec nrm st q top_k ms ets ∧
    (searchText nrm st q top_k ms ets).length =
      min top_k
        ((faissSearch st.vectors (nrm q) (min (3 * top_k) st.vectors.length)).filterMap
          (keepCandidate st.id_map ms ets)).length ∧
    List.Pairwise (fun a b : SearchResult => b.score ≤ a.score)
      (searchText nrm st q top_k ms ets) := by
  refine ⟨searchText_eq_spec nrm st q top_k ms ets, ?_, ?_⟩
  · rw [searchText_eq_spec]
    unfold searchTextSpec
    simp [List.length_take]
  · rw [searchText_eq_spec]
    unfold searchTextSpec
    exact List.Pairwise.sublist (List.take_sublist _ _)
      (sorted_filterMap_keep _ _ _ _ (faissSearch_sorted _ _ _))

/-- C3 witness: the theorem applied to a concrete two-entity store and the
filter `["location"]`. -/
theorem C3_overfetch_and_filter_witness :
    truthy (some ["location"]) = true ∧
    (searchText id sampleStore [1] 1 0 (some ["location"]) =
        searchTextSpec id sampleStore [1] 1 0 (some ["location"]) ∧
      (searchText id sampleStore [1] 1 0 (some ["location"])).length =
        min 1
          ((faissSearch sampleStore.vectors (id [1]) (min (3 * 1) sampleStore.vectors.length)).filterMap
            (keepCandidate sampleStore.id_map 0 (some ["location"]))).length ∧
      List.Pairwise (fun a b : SearchResult => b.score ≤ a.score)
        (searchText id sampleStore [1] 1 0 (some ["location"]))) :=
  ⟨rfl, C3_overfetch_and_filter id sampleStore [1] 1 0 (some ["location"]) rfl⟩

/-- C4: every result of `search_text` scores at least `min_score`, and when a
non-empty entity-type filter list is supplied every result's type is in it. -/
theorem C4_score_and_type_filter (nrm : Vec → Vec) (st : TextStore) (q : Vec)
    (k : Nat) (ms : Rat) (ets : Option (List String)) (r : SearchResult)
    (hr : r ∈ searchText nrm st q k ms ets) :
    ms ≤ r.score ∧ ∀ F : List String, ets = some F → F ≠ [] → r.entity_type ∈ F := by
  rw [searchText_eq_spec] at hr
  unfold searchTextSpec at hr
  have hr' := List.mem_of_mem_take hr
  rcases List.mem_filterMap.mp hr' with ⟨c, _hc, hkeep⟩
  have hscore := keepCandidate_score st.id_map ms ets c r hkeep
  unfold keepCandidate at hkeep
  constructor
  · split at hkeep
    · exact absurd hkeep (by simp)
    · rw [hscore]
      next hs => exact le_of_not_lt hs
  · intro F hF hFne
    subst hF
    split at hkeep
    · exact absurd hkeep (by simp)
    · split at hkeep
      · exact absurd hkeep (by simp)
      · next info heq =>
        split at hkeep
        · exact absurd hkeep (by simp)
        · next hcond =>
          cases hkeep
          have htr : truthy (some F) = true := by
            cases F with
            | nil => exact absurd rfl hFne
            | cons a as => rfl
          rw [htr] at hcond
          simp only [Bool.true_and, Bool.not_eq_true', decide_eq_false_iff_not,
            Decidable.not_not] at hcond
          simpa using hcond

/-- C4 witness: a concrete search (empty query vector, so every inner product
evaluates to the empty sum) whose membership hypothesis is discharged by
evaluation. -/
theorem C4_score_and_type_filter_witness :
    (⟨10, "location", 0, ⟨some "A", some "alpha"⟩⟩ : SearchResult) ∈
        searchText id sampleStore [] 1 0 (some ["location"]) ∧
    ((0 : Rat) ≤ (⟨10, "location", 0, ⟨some "A", some "alpha"⟩⟩ : SearchResult).score ∧
      ∀ F : List String, (some ["location"] : Option (List String)) = some F → F ≠ [] →
        (⟨10, "location", 0, ⟨some "A", some "alpha"⟩⟩ : SearchResult).entity_type ∈ F) := by
  have h : (⟨10, "location", 0, ⟨some "A", some "alpha"⟩⟩ : SearchResult) ∈
      searchText id sampleStore [] 1 0 (some ["location"]) := by decide
  exact ⟨h, C4_score_and_type_filter id sampleStore [] 1 0 (some ["location"]) _ h⟩

theorem keepCandidate_empty_filter (idm : List (Nat × EntryInfo)) (ms : Rat) :
    keepCandidate idm ms (some []) = keepCandidate idm ms none := by
  funext c
  unfold keepCandidate
  cases dictGet c.2 idm with
  | none => rfl
  | some info => rfl

/-- C10: supplying an empty entity-type filter list is identical to supplying
no filter at all — the empty list is falsy, so no type filtering is applied. -/
theorem C10_empty_filter_list (nrm : Vec → Vec) (st : TextStore) (q : Vec)
    (k : Nat) (ms : Rat) :
    searchText nrm st q k ms (some []) = searchText nrm st q k ms none := by
  rw [searchText_eq_spec, searchText_eq_spec]
  unfold searchTextSpec
  rw [keepCandidate_empty_filter]

theorem cacheGet_cacheSet (sid : String) (msgs : List Message)
    (c : List (String × List Message)) : cacheGet sid (cacheSet sid msgs c) = msgs := by
  induction c with
  | nil => simp [cacheSet, cacheGet]
  | cons p rest ih =>
    obtain ⟨s, m⟩ := p
    unfold cacheSet
    by_cases h : sid = s
    · simp [h, cacheGet]
    · simp [cacheGet, h, ih]

theorem pyLastN_zero_k (l : List Message) : pyLastN 0 l = l := rfl

theorem pyLastN_of_short (k : Nat) (l : List Message) (h : l.length ≤ k) :
    pyLastN k l = l := by
  unfold pyLastN
  split
  · rfl
  · rw [show l.length - k = 0 by omega, List.drop_zero]

theorem pyLastN_length (k : Nat) (l : List Message) (hk : k ≠ 0) :
    (pyLastN k l).length = min k l.length := by
  unfold pyLastN
  rw [if_neg hk, List.length_drop]
  omega

theorem pyLastN_append (k : Nat) (l xs : List Message) :
    pyLastN k (pyLastN k l ++ xs) = pyLastN k (l ++ xs) := by
  by_cases hk : k = 0
  · subst hk
    simp [pyLastN]
  · by_cases hkl : k ≤ l.length
    · simp only [pyLastN, if_neg hk, List.length_append, List.length_drop]
      rw [List.drop_append_eq_append_drop, List.drop_append_eq_append_drop, List.drop_drop,
        List.length_drop]
      congr 1
      · congr 1
        omega
      · congr 1
        omega
    · rw [pyLastN_of_short k l (by omega)]

theorem cap_eq_pyLastN (c : List Message) :
    (if 50 < c.length then pyLastN 50 c else c) = pyLastN 50 c := by
  split
  · rfl
  · next h => exact (pyLastN_of_short 50 c (by omega)).symm

theorem store_cache_step (st : MemoryState) (sid : String) (uid : Option Int)
    (role content : String) (hb : (st.convConfigured && st.requestOk) = false) :
    storeConversationMessage st sid uid role content =
      { st with
          clock := st.clock + 1
          cache := cacheSet sid (pyLastN 50 (cacheGet sid st.cache ++ [⟨sid, uid, role, content, st.clock⟩])) st.cache } := by
  unfold storeConversationMessage
  rw [hb]
  simp only [Bool.false_eq_true, if_false]
  rw [cap_eq_pyLastN]

theorem renderMsgs_length (sid : String) (uid : Option Int) :
    ∀ (items : List (String × String)) (clock : Nat),
      (renderMsgs sid uid clock items).length = items.length := by
  intro items
  induction items with
  | nil => intro clock; rfl
  | cons rc rest ih =>
    intro clock
    obtain ⟨r, c⟩ := rc
    simp [renderMsgs, ih]

theorem storeMany_cache_eq (sid : String) (uid : Option Int) :
    ∀ (items : List (String × String)) (st : MemoryState),
      (st.convConfigured && st.requestOk) = false →
      (cacheGet sid st.cache).length ≤ 50 →
      cacheGet sid (storeMany st sid uid items).cache =
        pyLastN 50 (cacheGet sid st.cache ++ renderMsgs sid uid st.clock items) := by
  intro items
  induction items with
  | nil =>
    intro st hb hlen
    show cacheGet sid st.cache = pyLastN 50 (cacheGet sid st.cache ++ [])
    rw [List.append_nil, pyLastN_of_short 50 _ hlen]
  | cons rc rest ih =>
    intro st hb hlen
    obtain ⟨role, content⟩ := rc
    have hstep := store_cache_step st sid uid role content hb
    set msg : Message := ⟨sid, uid, role, content, st.clock⟩ with hmsg
    set st' : MemoryState :=
      { st with clock := st.clock + 1, cache := cacheSet sid (pyLastN 50 (cacheGet sid st.cache ++ [msg])) st.cache } with hst'
    have hb' : (st'.convConfigured && st'.requestOk) = false := hb
    have hcache' : cacheGet sid st'.cache = pyLastN 50 (cacheGet sid st.cache ++ [msg]) :=
      cacheGet_cacheSet _ _ _
    have hlen' : (cacheGet sid st'.cache).length ≤ 50 := by
      rw [hcache', pyLastN_length 50 _ (by omega)]
      omega
    have hclock : st'.clock = st.clock + 1 := rfl
    calc cacheGet sid (storeMany st sid uid ((role, content) :: rest)).cache
        = cacheGet sid (storeMany st' sid uid rest).cache := by
          simp only [storeMany]
          rw [hstep]
      _ = pyLastN 50 (cacheGet sid st'.cache ++ renderMsgs sid uid st'.clock rest) :=
          ih st' hb' hlen'
      _ = pyLastN 50 (pyLastN 50 (cacheGet sid st.cache ++ [msg]) ++
            renderMsgs sid uid (st.clock + 1) rest) := by
          rw [hcache', hclock]
      _ = pyLastN 50 ((cacheGet sid st.cache ++ [msg]) ++
            renderMsgs sid uid (st.clock + 1) rest) := pyLastN_append _ _ _
      _ = pyLastN 50 (cacheGet sid st.cache ++
            renderMsgs sid uid st.clock ((role, content) :: rest)) := by
          rw [List.append_assoc]
          rfl

theorem tsLe_trans : ∀ a b c : Message,
    tsLe a b = true → tsLe b c = true → tsLe a c = true := by
  intro a b c hab hbc
  exact decide_eq_true (le_trans (of_decide_eq_true hbc) (of_decide_eq_true hab))

theorem tsLe_total : ∀ a b : Message, (tsLe a b || tsLe b a) = true := by
  intro a b
  rcases le_total b.timestamp a.timestamp with h | h
  · have : tsLe a b = true := decide_eq_true h
    simp [this]
  · have : tsLe b a = true := decide_eq_true h
    simp [this]

theorem mergeSort_tsLe_of_strict_mono (f : List Message)
    (hpf : List.Pairwise (fun a b : Message => a.timestamp < b.timestamp) f) :
    f.mergeSort tsLe = f.reverse := by
  have hperm : (f.mergeSort tsLe).Perm f.reverse :=
    (List.mergeSort_perm f tsLe).trans (List.reverse_perm f).symm
  have hsorted1 : List.Pairwise (fun a b : Message => b.timestamp < a.timestamp)
      (f.mergeSort tsLe) := by
    have h1 : List.Pairwise (fun a b : Message => tsLe a b = true) (f.mergeSort tsLe) :=
      List.sorted_mergeSort tsLe_trans tsLe_total f
    have hnef : List.Pairwise (fun a b : Message => a.timestamp ≠ b.timestamp) f :=
      hpf.imp (fun h => ne_of_lt h)
    have hne : List.Pairwise (fun a b : Message => a.timestamp ≠ b.timestamp)
        (f.mergeSort tsLe) :=
      ((List.mergeSort_perm f tsLe).pairwise_iff (fun h => Ne.symm h)).mpr hnef
    exact (h1.and hne).imp (fun hx =>
      lt_of_le_of_ne (of_decide_eq_true hx.1) (fun heq => hx.2 heq.symm))
  have hsorted2 : List.Pairwise (fun a b : Message => b.timestamp < a.timestamp)
      f.reverse :=
    List.pairwise_reverse.mpr hpf
  haveI : IsAntisymm Message (fun a b : Message => b.timestamp < a.timestamp) :=
    ⟨fun _ _ h1 h2 => absurd (lt_trans h1 h2) (lt_irrefl _)⟩
  exact List.eq_of_perm_of_sorted hperm hsorted1 hsorted2

theorem reverse_take_reverse (l : List Message) (k : Nat) :
    (l.reverse.take k).reverse = l.drop (l.length - k) := by
  rw [List.take_reverse, List.reverse_reverse]

/-- C6: under the volatile cache backend (conversation table unconfigured or
the request failing), a run of stores leaves the session cache holding exactly
the last 50 of the previously cached plus newly stored messages, in store
order (oldest evicted first), and `get_conversation_history` returns the last
`limit` cached messages in that oldest-first order; under the durable backend,
with timestamps increasing in insertion order, `get_conversation_history`
returns the last `limit` of the session's stored messages in oldest-first
order (the descending-sort fetch reversed). -/
theorem C6_history_cap_and_order (st : MemoryState) (sid : String)
    (uid : Option Int) (items : List (String × String)) (limit : Nat) :
    ((st.convConfigured && st.requestOk) = false →
      (cacheGet sid st.cache).length ≤ 50 →
      (cacheGet sid (storeMany st sid uid items).cache =
          pyLastN 50 (cacheGet sid st.cache ++ renderMsgs sid uid st.clock items) ∧
        getConversationHistory st sid limit = pyLastN limit (cacheGet sid st.cache))) ∧
    ((st.convConfigured && st.requestOk) = true →
      List.Pairwise (fun a b : Message => a.timestamp < b.timestamp) st.durable →
      getConversationHistory st sid limit =
        (st.durable.filter (fun m => decide (m.sessionId = sid))).drop
          ((st.durable.filter (fun m => decide (m.sessionId = sid))).length - limit)) := by
  constructor
  · intro hb hlen
    constructor
    · exact storeMany_cache_eq sid uid items st hb hlen
    · unfold getConversationHistory
      rw [hb]
      simp
  · intro hb hts
    unfold getConversationHistory
    rw [hb]
    simp only [if_pos]
    have hpf : List.Pairwise (fun a b : Message => a.timestamp < b.timestamp)
        (st.durable.filter (fun m => decide (m.sessionId = sid))) :=
      List.Pairwise.sublist (List.filter_sublist _) hts
    rw [mergeSort_tsLe_of_strict_mono _ hpf]
    exact reverse_take_reverse _ _

/-- C6 witness: the cache half applied to the empty cache state with two
stores, and the durable half applied to a two-message durable state. -/
theorem C6_history_cap_and_order_witness :
    (cacheGet "s1" (storeMany sampleCacheState "s1" (some 1) [("user", "a"), ("assistant", "b")]).cache =
        pyLastN 50 (cacheGet "s1" sampleCacheState.cache ++
          renderMsgs "s1" (some 1) sampleCacheState.clock [("user", "a"), ("assistant", "b")]) ∧
      getConversationHistory sampleCacheState "s1" 5 =
        pyLastN 5 (cacheGet "s1" sampleCacheState.cache)) ∧
    getConversationHistory sampleDurableState "s1" 1 =
      (sampleDurableState.durable.filter (fun m => decide (m.sessionId = "s1"))).drop
        ((sampleDurableState.durable.filter (fun m => decide (m.sessionId = "s1"))).length - 1) := by
  constructor
  · exact (C6_history_cap_and_order sampleCacheState "s1" (some 1)
      [("user", "a"), ("assistant", "b")] 5).1 rfl (by decide)
  · exact (C6_history_cap_and_order sampleDurableState "s1" (some 1) [] 1).2 rfl (by decide)

theorem chunks_cons_eq (bs : Nat) (hbs : 0 < bs) (l : List Txt) (hl : l ≠ []) :
    chunks bs l = l.take bs :: chunks bs (l.drop bs) := by
  cases bs with
  | zero => omega
  | succ b =>
    cases l with
    | nil => exact absurd rfl hl
    | cons x xs => simp [chunks]

theorem batchBlock_length (p : List Txt → Except String (List Emb))
    (HP : ∀ b embs, p b = Except.ok embs → embs.length = b.length)
    (batch : List Txt) : (batchBlock p batch).length = batch.length := by
  unfold batchBlock
  cases hp : p (cleanBatch batch) with
  | ok embs =>
    rw [List.length_map, HP _ _ hp]
    simp [cleanBatch]
  | error e => simp

theorem batchBlock_get (p : List Txt → Except String (List Emb))
    (HP : ∀ b embs, p b = Except.ok embs → embs.length = b.length)
    (B : List Txt) (off : Nat) (hoff : off < B.length) :
    (batchBlock p B)[off]? =
      some (match p (cleanBatch B) with
            | .ok embs => embs[off]?
            | .error _ => none) := by
  unfold batchBlock
  cases hp : p (cleanBatch B) with
  | ok embs =>
    have hlen : embs.length = B.length := by
      rw [HP _ _ hp]
      simp [cleanBatch]
    have hofflt : off < embs.length := by omega
    rw [List.getElem?_map, List.getElem?_eq_getElem hofflt]
    simp
  | error e =>
    rw [List.getElem?_replicate, if_pos hoff]

theorem batch_flatten_length (p : List Txt → Except String (List Emb))
    (HP : ∀ b embs, p b = Except.ok embs → embs.length = b.length)
    (bs : Nat) (hbs : 0 < bs) :
    ∀ (n : Nat) (texts : List Txt), texts.length ≤ n →
      (((chunks bs texts).map (batchBlock p)).flatten).length = texts.length := by
  intro n
  induction n with
  | zero =>
    intro texts h
    have hnil : texts = [] := List.eq_nil_of_length_eq_zero (Nat.le_zero.mp h)
    subst hnil
    simp [chunks]
  | succ n ih =>
    intro texts h
    cases texts with
    | nil => simp [chunks]
    | cons x xs =>
      rw [chunks_cons_eq bs hbs _ (by simp)]
      simp only [List.map_cons, List.flatten_cons, List.length_append]
      rw [batchBlock_length p HP, ih ((x :: xs).drop bs) (by
        rw [List.length_drop]
        simp only [List.length_cons] at h ⊢
        omega)]
      rw [List.length_take, List.length_drop]
      omega

theorem batch_flatten_get (p : List Txt → Except String (List Emb))
    (HP : ∀ b embs, p b = Except.ok embs → embs.length = b.length)
    (bs : Nat) (hbs : 0 < bs) :
    ∀ (j off : Nat) (texts : List Txt), off < bs → bs * j + off < texts.length →
      (((chunks bs texts).map (batchBlock p)).flatten)[bs * j + off]? =
        some (match p (cleanBatch ((texts.drop (bs * j)).take bs)) with
              | .ok embs => embs[off]?
              | .error _ => none) := by
  intro j
  induction j with
  | zero =>
    intro off texts hoff hlt
    cases texts with
    | nil => simp at hlt
    | cons x xs =>
      rw [chunks_cons_eq bs hbs _ (by simp)]
      simp only [List.map_cons, List.flatten_cons, Nat.mul_zero, Nat.zero_add,
        List.drop_zero]
      have hofflt : off < (batchBlock p ((x :: xs).take bs)).length := by
        rw [batchBlock_length p HP, List.length_take]
        simp only [Nat.mul_zero, Nat.zero_add] at hlt
        omega
      rw [List.getElem?_append_left hofflt]
      exact batchBlock_get p HP _ off (by
        rw [List.length_take]
        simp only [Nat.mul_zero, Nat.zero_add] at hlt
        omega)
  | succ j ih =>
    intro off texts hoff hlt
    cases texts with
    | nil => simp at hlt
    | cons x xs =>
      have hbsle : bs ≤ bs * (j + 1) + off := by
        have h1 : bs * 1 ≤ bs * (j + 1) := Nat.mul_le_mul_left bs (by omega)
        omega
      have hlenge : bs ≤ (x :: xs).length := by omega
      rw [chunks_cons_eq bs hbs _ (by simp)]
      simp only [List.map_cons, List.flatten_cons]
      have hblen : (batchBlock p ((x :: xs).take bs)).length = bs := by
        rw [batchBlock_length p HP, List.length_take]
        omega
      rw [List.getElem?_append_right (by rw [hblen]; exact hbsle)]
      rw [hblen]
      have hidx : bs * (j + 1) + off - bs = bs * j + off := by
        rw [Nat.mul_succ]
        omega
      rw [hidx]
      have hlt' : bs * j + off < ((x :: xs).drop bs).length := by
        rw [List.length_drop]
        rw [Nat.mul_succ] at hlt
        omega
      rw [ih off ((x :: xs).drop bs) hoff hlt']
      have hdd : ((x :: xs).drop bs).drop (bs * j) = (x :: xs).drop (bs * (j + 1)) := by
        rw [List.drop_drop, Nat.mul_succ]
        congr 1
        omega
      rw [hdd]

/-- C8: with a configured client and a provider meeting the one-embedding-per
input contract, the batch embedding output has exactly the input length;
with no client it is `None` per input; and the entry at position
`bs * j + off` (the `off`-th member of the `j`-th batch — every index < length
decomposes this way with `off < bs`) is the provider's `off`-th embedding for
that batch on success and `None` when that batch call failed, so outputs stay
in input order and a failed batch yields the unavailable outcome, never a
raised fault. -/
theorem C8_batch_shape (p : List Txt → Except String (List Emb))
    (texts : List Txt) (bs : Nat) (hbs : 0 < bs)
    (HP : ∀ b embs, p b = Except.ok embs → embs.length = b.length) :
    (getTextEmbeddingsBatch (some ()) p texts bs).length = texts.length ∧
    getTextEmbeddingsBatch none p texts bs = List.replicate texts.length none ∧
    (∀ j off : Nat, off < bs → bs * j + off < texts.length →
      (getTextEmbeddingsBatch (some ()) p texts bs)[bs * j + off]? =
        some (match p (cleanBatch ((texts.drop (bs * j)).take bs)) with
              | .ok embs => embs[off]?
              | .error _ => none)) := by
  refine ⟨?_, rfl, ?_⟩
  · exact batch_flatten_length p HP bs hbs texts.length texts le_rfl
  · intro j off hoff hlt
    exact batch_flatten_get p HP bs hbs j off texts hoff hlt

/-- C8 witness: two one-character inputs, batch size 1, and the sample
provider (whose length contract is discharged by computation). -/
theorem C8_batch_shape_witness :
    (0 : Nat) < 1 ∧
    (∀ b embs, sampleBatchProvider b = Except.ok embs → embs.length = b.length) ∧
    ((getTextEmbeddingsBatch (some ()) sampleBatchProvider [['a'], ['b']] 1).length = 2 ∧
      getTextEmbeddingsBatch none sampleBatchProvider [['a'], ['b']] 1 =
        List.replicate 2 none ∧
      (∀ j off : Nat, off < 1 → 1 * j + off < 2 →
        (getTextEmbeddingsBatch (some ()) sampleBatchProvider [['a'], ['b']] 1)[1 * j + off]? =
          some (match sampleBatchProvider (cleanBatch (([['a'], ['b']].drop (1 * j)).take 1)) with
                | .ok embs => embs[off]?
                | .error _ => none))) := by
  have hHP : ∀ b embs, sampleBatchProvider b = Except.ok embs → embs.length = b.length := by
    intro b embs h
    cases h
    simp
  exact ⟨by omega, hHP, C8_batch_shape sampleBatchProvider [['a'], ['b']] 1 (by omega) hHP⟩
